import Mathlib

/-!
Shallow embedding of the concept-explainer repository: an Astro DB schema
(tables Concepts, ConceptSteps, ConceptChecks, ConceptJobs) together with the
authenticated CRUD action handlers defined in the actions module
(createConcept, updateConcept, archiveConcept, listMyConcepts,
getConceptWithDetails, saveStep, deleteStep, saveCheck, deleteCheck,
createJob, updateJob, listJobs).

Modelling decisions, in correspondence with the source:
  - The database is a quadruple of row lists plus per-table auto-increment
    counters (the schema declares every id as primaryKey + autoIncrement).
  - Dates are modelled as natural-number ticks; each mutating handler takes
    the current time as an explicit argument (the source calls new Date(),
    and the date columns default to NOW).
  - The authenticated caller is an Option String: context.locals.user is
    either absent or carries a user id.  requireUser mirrors the guard.
  - JSON payload columns (options, correctAnswer, job input/output) are
    opaque to every handler: no operation inspects their shape.  They are
    modelled by a small tagged value type; the arr/obj cases of full JSON
    are omitted because no handler and no property distinguishes payloads
    beyond equality.
  - JavaScript truthiness tests that the handlers perform on numbers
    (if (input.id), if (input.conceptId), input?.conceptId ? _ : _,
    job.conceptId ? _ : _) are modelled exactly: a supplied number is
    truthy iff it is nonzero.  Truthiness tests on strings
    (input?.subject ? _ : _) are truthy iff the string is nonempty.
    Ids are nonnegative integers, modelled as Nat.
  - Each handler returns Except ActionError of its result; mutating
    handlers also return the new database.  A thrown ActionError aborts the
    handler before any write, so the error case carries no state change.
-/

namespace ConceptExplainer

/-- Difficulty enum of the Concepts table. -/
inductive Difficulty where
  | beginner | intermediate | advanced
deriving DecidableEq

/-- Status enum of the Concepts table. -/
inductive CStatus where
  | draft | published | archived
deriving DecidableEq

/-- stepType enum of the ConceptSteps table. -/
inductive StepType where
  | intro | intuition | definition | «example» | analogy | summary | other
deriving DecidableEq

/-- type enum of the ConceptChecks table. -/
inductive CheckType where
  | single_choice | multiple_choice | true_false | short_text
deriving DecidableEq

/-- jobType enum of the ConceptJobs table. -/
inductive JobType where
  | explain_like_5 | step_breakdown | analogy | summary | other
deriving DecidableEq

/-- status enum of the ConceptJobs table. -/
inductive JStatus where
  | pending | completed | failed
deriving DecidableEq

/-- Opaque JSON payload stored in the json columns (options, correctAnswer,
job input/output).  No handler inspects these values, so the arr/obj shapes
of full JSON are not needed for any property. -/
inductive Json where
  | null : Json
  | jbool (b : Bool) : Json
  | jnum (n : Int) : Json
  | jstr (s : String) : Json
deriving DecidableEq

/-- A row of the Concepts table.  The source column named "example" on steps
is kept with guillemets below; here all names match the schema directly. -/
structure Concept where
  id : Nat
  ownerId : String
  title : String
  description : Option String
  subject : Option String
  topic : Option String
  tags : Option String
  difficulty : Difficulty
  status : CStatus
  createdAt : Nat
  updatedAt : Nat
deriving DecidableEq

/-- A row of the ConceptSteps table. -/
structure ConceptStep where
  id : Nat
  conceptId : Nat
  stepNumber : Nat
  stepType : StepType
  heading : Option String
  content : String
  «example» : Option String
  analogy : Option String
  createdAt : Nat
deriving DecidableEq

/-- A row of the ConceptChecks table. -/
structure ConceptCheck where
  id : Nat
  conceptId : Nat
  question : String
  options : Option Json
  correctAnswer : Option Json
  explanation : Option String
  type : CheckType
  createdAt : Nat
deriving DecidableEq

/-- A row of the ConceptJobs table.  conceptId is an optional reference. -/
structure ConceptJob where
  id : Nat
  conceptId : Option Nat
  ownerId : String
  jobType : JobType
  input : Option Json
  output : Option Json
  status : JStatus
  createdAt : Nat
deriving DecidableEq

/-- Declared column default of ConceptJobs.status in the schema (the handler
for createJob overrides it with "pending"). -/
def conceptJobsStatusColumnDefault : JStatus := JStatus.completed

/-- Declared column default of ConceptJobs.jobType in the schema. -/
def conceptJobsJobTypeColumnDefault : JobType := JobType.step_breakdown

/-- The persistent store: one list per table, plus the auto-increment counter
each primaryKey autoIncrement column maintains. -/
structure DB where
  concepts : List Concept
  conceptSteps : List ConceptStep
  conceptChecks : List ConceptCheck
  conceptJobs : List ConceptJob
  nextConceptId : Nat
  nextStepId : Nat
  nextCheckId : Nat
  nextJobId : Nat
deriving DecidableEq

/-- The empty database, with auto-increment counters at 1. -/
def emptyDB : DB :=
  { concepts := [], conceptSteps := [], conceptChecks := [], conceptJobs := []
    nextConceptId := 1, nextStepId := 1, nextCheckId := 1, nextJobId := 1 }

/-- The two domain errors thrown by the handlers, with their messages. -/
inductive ActionError where
  | unauthorized (msg : String)
  | notFound (msg : String)
deriving DecidableEq

/-- The guard: resolves the caller from request context or throws
UNAUTHORIZED. -/
def requireUser : Option String → Except ActionError String
  | none => .error (.unauthorized "You must be signed in to perform this action.")
  | some u => .ok u

/-- JavaScript truthiness of an optional number (undefined and 0 are falsy). -/
def truthyNum : Option Nat → Bool
  | none => false
  | some n => n != 0

/-- JavaScript truthiness of an optional string (undefined and "" are falsy). -/
def truthyStr : Option String → Bool
  | none => false
  | some s => s != ""

/-- The repeated ownership lookup: select from Concepts where id = cid and
ownerId = user, limit 1. -/
def ownedConcept (db : DB) (cid : Nat) (user : String) : Option Concept :=
  (db.concepts.filter fun c => c.id == cid && c.ownerId == user).head?

/-- Apply a provided optional input value over an existing optional column
value: provided (some) replaces, absent (undefined) keeps the old value. -/
def mergeOpt {α : Type} (newVal oldVal : Option α) : Option α :=
  match newVal with
  | some v => some v
  | none => oldVal

/-- Input of createConcept after validation. -/
structure CreateConceptInput where
  title : String
  description : Option String
  subject : Option String
  topic : Option String
  tags : Option String
  difficulty : Option Difficulty
  status : Option CStatus
deriving DecidableEq

/-- createConcept: inserts a Concept owned by the caller with defaults
difficulty = beginner, status = draft, createdAt = updatedAt = now. -/
def createConcept (inp : CreateConceptInput) (ctx : Option String) (now : Nat)
    (db : DB) : Except ActionError (Concept × DB) :=
  match requireUser ctx with
  | .error e => .error e
  | .ok user =>
    let row : Concept :=
      { id := db.nextConceptId
        ownerId := user
        title := inp.title
        description := inp.description
        subject := inp.subject
        topic := inp.topic
        tags := inp.tags
        difficulty := inp.difficulty.getD Difficulty.beginner
        status := inp.status.getD CStatus.draft
        createdAt := now
        updatedAt := now }
    .ok (row, { db with concepts := db.concepts ++ [row]
                        nextConceptId := db.nextConceptId + 1 })

/-- Input of updateConcept after validation; absent optional fields are
undefined in the source and None here. -/
structure UpdateConceptInput where
  id : Nat
  title : Option String
  description : Option String
  subject : Option String
  topic : Option String
  tags : Option String
  difficulty : Option Difficulty
  status : Option CStatus
deriving DecidableEq

/-- Does the updateData object built from the defined entries of the input
rest have at least one key?  Mirrors Object.keys(updateData).length === 0. -/
def hasConceptUpdates (inp : UpdateConceptInput) : Bool :=
  inp.title.isSome || inp.description.isSome || inp.subject.isSome ||
  inp.topic.isSome || inp.tags.isSome || inp.difficulty.isSome ||
  inp.status.isSome

/-- The row transformation of the updateConcept write: every defined input
field overwrites the column, updatedAt is set to now. -/
def applyConceptUpdate (inp : UpdateConceptInput) (now : Nat) (c : Concept) :
    Concept :=
  { c with
    title := inp.title.getD c.title
    description := mergeOpt inp.description c.description
    subject := mergeOpt inp.subject c.subject
    topic := mergeOpt inp.topic c.topic
    tags := mergeOpt inp.tags c.tags
    difficulty := inp.difficulty.getD c.difficulty
    status := inp.status.getD c.status
    updatedAt := now }

/-- updateConcept: loads the Concept scoped to (id, ownerId = caller), throws
NOT_FOUND if absent; with no defined fields returns the existing record
without writing; otherwise updates the scoped rows and returns the first
updated row. -/
def updateConcept (inp : UpdateConceptInput) (ctx : Option String) (now : Nat)
    (db : DB) : Except ActionError (Concept × DB) :=
  match requireUser ctx with
  | .error e => .error e
  | .ok user =>
    match ownedConcept db inp.id user with
    | none => .error (.notFound "Concept not found.")
    | some existing =>
      if hasConceptUpdates inp then
        .ok (applyConceptUpdate inp now existing,
             { db with concepts := db.concepts.map fun c =>
                 if c.id == inp.id && c.ownerId == user then
                   applyConceptUpdate inp now c
                 else c })
      else
        .ok (existing, db)

/-- archiveConcept: update scoped to (id, ownerId = caller) setting
status = archived and updatedAt = now; NOT_FOUND when no row matched. -/
def archiveConcept (id : Nat) (ctx : Option String) (now : Nat) (db : DB) :
    Except ActionError (Concept × DB) :=
  match requireUser ctx with
  | .error e => .error e
  | .ok user =>
    match ownedConcept db id user with
    | none => .error (.notFound "Concept not found.")
    | some existing =>
      .ok ({ existing with status := CStatus.archived, updatedAt := now },
           { db with concepts := db.concepts.map fun c =>
               if c.id == id && c.ownerId == user then
                 { c with status := CStatus.archived, updatedAt := now }
               else c })

/-- Optional filters of listMyConcepts. -/
structure ListMyConceptsInput where
  status : Option CStatus
  subject : Option String
  topic : Option String
deriving DecidableEq

/-- listMyConcepts: selects the caller's Concepts and filters them in memory;
each filter clause tests the filter value for truthiness (an enum value is a
nonempty string, hence always truthy when present). -/
def listMyConcepts (inp : Option ListMyConceptsInput) (ctx : Option String)
    (db : DB) : Except ActionError (List Concept) :=
  match requireUser ctx with
  | .error e => .error e
  | .ok user =>
    let mine := db.concepts.filter fun c => c.ownerId == user
    .ok (mine.filter fun c =>
      (match inp.bind (fun i => i.status) with
       | some st => c.status == st
       | none => true) &&
      (match inp.bind (fun i => i.subject) with
       | some s => if s != "" then c.subject == some s else true
       | none => true) &&
      (match inp.bind (fun i => i.topic) with
       | some t => if t != "" then c.topic == some t else true
       | none => true))

/-- getConceptWithDetails: loads one owned Concept (else NOT_FOUND) plus all
its Steps and Checks.  Read-only. -/
def getConceptWithDetails (id : Nat) (ctx : Option String) (db : DB) :
    Except ActionError (Concept × List ConceptStep × List ConceptCheck) :=
  match requireUser ctx with
  | .error e => .error e
  | .ok user =>
    match ownedConcept db id user with
    | none => .error (.notFound "Concept not found.")
    | some concept =>
      .ok (concept,
           db.conceptSteps.filter (fun s => s.conceptId == id),
           db.conceptChecks.filter (fun ck => ck.conceptId == id))

/-- Input of saveStep after validation. -/
structure SaveStepInput where
  id : Option Nat
  conceptId : Nat
  stepNumber : Option Nat
  stepType : Option StepType
  heading : Option String
  content : String
  «example» : Option String
  analogy : Option String
deriving DecidableEq

/-- The baseValues object of saveStep applied over a row: full replace of all
mutable columns with defaults stepNumber = 1 and stepType = other; id and
createdAt are not in baseValues and stay. -/
def applyStepBase (inp : SaveStepInput) (s : ConceptStep) : ConceptStep :=
  { s with
    conceptId := inp.conceptId
    stepNumber := inp.stepNumber.getD 1
    stepType := inp.stepType.getD StepType.other
    heading := inp.heading
    content := inp.content
    «example» := inp.«example»
    analogy := inp.analogy }

/-- The row inserted by saveStep when no truthy id is supplied; createdAt
takes the column default NOW. -/
def newStepRow (inp : SaveStepInput) (now : Nat) (db : DB) : ConceptStep :=
  { id := db.nextStepId
    conceptId := inp.conceptId
    stepNumber := inp.stepNumber.getD 1
    stepType := inp.stepType.getD StepType.other
    heading := inp.heading
    content := inp.content
    «example» := inp.«example»
    analogy := inp.analogy
    createdAt := now }

/-- saveStep: verifies the caller owns conceptId (else NOT_FOUND); with a
truthy id, loads the Step by id alone, throws NOT_FOUND when it is absent or
its conceptId differs from the supplied one, then overwrites it with
baseValues; otherwise inserts a new Step. -/
def saveStep (inp : SaveStepInput) (ctx : Option String) (now : Nat)
    (db : DB) : Except ActionError (ConceptStep × DB) :=
  match requireUser ctx with
  | .error e => .error e
  | .ok user =>
    match ownedConcept db inp.conceptId user with
    | none => .error (.notFound "Concept not found.")
    | some _ =>
      if truthyNum inp.id then
        let idv := inp.id.getD 0
        match (db.conceptSteps.filter fun s => s.id == idv).head? with
        | none => .error (.notFound "Step not found.")
        | some existing =>
          if existing.conceptId == inp.conceptId then
            .ok (applyStepBase inp existing,
                 { db with conceptSteps := db.conceptSteps.map fun s =>
                     if s.id == idv then applyStepBase inp s else s })
          else
            .error (.notFound "Step not found.")
      else
        .ok (newStepRow inp now db,
             { db with conceptSteps := db.conceptSteps ++ [newStepRow inp now db]
                       nextStepId := db.nextStepId + 1 })

/-- deleteStep: verifies concept ownership, deletes the Steps matching both
id and conceptId, throws NOT_FOUND when none matched, returns the first
deleted row. -/
def deleteStep (id conceptId : Nat) (ctx : Option String) (db : DB) :
    Except ActionError (ConceptStep × DB) :=
  match requireUser ctx with
  | .error e => .error e
  | .ok user =>
    match ownedConcept db conceptId user with
    | none => .error (.notFound "Concept not found.")
    | some _ =>
      match (db.conceptSteps.filter fun s =>
          s.id == id && s.conceptId == conceptId).head? with
      | none => .error (.notFound "Step not found.")
      | some deleted =>
        .ok (deleted,
             { db with conceptSteps := db.conceptSteps.filter fun s =>
                 !(s.id == id && s.conceptId == conceptId) })

/-- Input of saveCheck after validation. -/
structure SaveCheckInput where
  id : Option Nat
  conceptId : Nat
  question : String
  options : Option Json
  correctAnswer : Option Json
  explanation : Option String
  type : Option CheckType
deriving DecidableEq

/-- The baseValues object of saveCheck applied over a row: full replace with
default type = single_choice; id and createdAt stay. -/
def applyCheckBase (inp : SaveCheckInput) (ck : ConceptCheck) : ConceptCheck :=
  { ck with
    conceptId := inp.conceptId
    question := inp.question
    options := inp.options
    correctAnswer := inp.correctAnswer
    explanation := inp.explanation
    type := inp.type.getD CheckType.single_choice }

/-- The row inserted by saveCheck when no truthy id is supplied. -/
def newCheckRow (inp : SaveCheckInput) (now : Nat) (db : DB) : ConceptCheck :=
  { id := db.nextCheckId
    conceptId := inp.conceptId
    question := inp.question
    options := inp.options
    correctAnswer := inp.correctAnswer
    explanation := inp.explanation
    type := inp.type.getD CheckType.single_choice
    createdAt := now }

/-- saveCheck: mirrors saveStep over the ConceptChecks table. -/
def saveCheck (inp : SaveCheckInput) (ctx : Option String) (now : Nat)
    (db : DB) : Except ActionError (ConceptCheck × DB) :=
  match requireUser ctx with
  | .error e => .error e
  | .ok user =>
    match ownedConcept db inp.conceptId user with
    | none => .error (.notFound "Concept not found.")
    | some _ =>
      if truthyNum inp.id then
        let idv := inp.id.getD 0
        match (db.conceptChecks.filter fun ck => ck.id == idv).head? with
        | none => .error (.notFound "Check not found.")
        | some existing =>
          if existing.conceptId == inp.conceptId then
            .ok (applyCheckBase inp existing,
                 { db with conceptChecks := db.conceptChecks.map fun ck =>
                     if ck.id == idv then applyCheckBase inp ck else ck })
          else
            .error (.notFound "Check not found.")
      else
        .ok (newCheckRow inp now db,
             { db with conceptChecks := db.conceptChecks ++ [newCheckRow inp now db]
                       nextCheckId := db.nextCheckId + 1 })

/-- deleteCheck: mirrors deleteStep over the ConceptChecks table. -/
def deleteCheck (id conceptId : Nat) (ctx : Option String) (db : DB) :
    Except ActionError (ConceptCheck × DB) :=
  match requireUser ctx with
  | .error e => .error e
  | .ok user =>
    match ownedConcept db conceptId user with
    | none => .error (.notFound "Concept not found.")
    | some _ =>
      match (db.conceptChecks.filter fun ck =>
          ck.id == id && ck.conceptId == conceptId).head? with
      | none => .error (.notFound "Check not found.")
      | some deleted =>
        .ok (deleted,
             { db with conceptChecks := db.conceptChecks.filter fun ck =>
                 !(ck.id == id && ck.conceptId == conceptId) })

/-- Input of createJob after validation. -/
structure CreateJobInput where
  conceptId : Option Nat
  jobType : Option JobType
  input : Option Json
  output : Option Json
  status : Option JStatus
deriving DecidableEq

/-- The row inserted by createJob: handler defaults jobType = step_breakdown
and status = pending; createdAt comes from new Date(). -/
def newJobRow (inp : CreateJobInput) (user : String) (now : Nat) (db : DB) :
    ConceptJob :=
  { id := db.nextJobId
    conceptId := inp.conceptId
    ownerId := user
    jobType := inp.jobType.getD JobType.step_breakdown
    input := inp.input
    output := inp.output
    status := inp.status.getD JStatus.pending
    createdAt := now }

/-- createJob: when the supplied conceptId is truthy, verifies the caller
owns it (else NOT_FOUND); then inserts a Job with defaults
jobType = step_breakdown and status = pending. -/
def createJob (inp : CreateJobInput) (ctx : Option String) (now : Nat)
    (db : DB) : Except ActionError (ConceptJob × DB) :=
  match requireUser ctx with
  | .error e => .error e
  | .ok user =>
    let ownershipOk : Bool :=
      match inp.conceptId with
      | some cid => if cid != 0 then (ownedConcept db cid user).isSome else true
      | none => true
    if ownershipOk then
      .ok (newJobRow inp user now db,
           { db with conceptJobs := db.conceptJobs ++ [newJobRow inp user now db]
                     nextJobId := db.nextJobId + 1 })
    else
      .error (.notFound "Concept not found.")

/-- Input of updateJob after validation. -/
structure UpdateJobInput where
  id : Nat
  output : Option Json
  status : Option JStatus
deriving DecidableEq

/-- The updateData object of updateJob applied over a row: only output and
status, each only when defined. -/
def applyJobUpdate (inp : UpdateJobInput) (j : ConceptJob) : ConceptJob :=
  { j with
    output := mergeOpt inp.output j.output
    status := inp.status.getD j.status }

/-- updateJob: loads the Job scoped to (id, ownerId = caller) (else
NOT_FOUND); with neither output nor status defined returns the existing
record without writing; otherwise updates the rows matching the id (the
update where-clause carries no ownerId) and returns the first such row. -/
def updateJob (inp : UpdateJobInput) (ctx : Option String) (db : DB) :
    Except ActionError (ConceptJob × DB) :=
  match requireUser ctx with
  | .error e => .error e
  | .ok user =>
    match (db.conceptJobs.filter fun j =>
        j.id == inp.id && j.ownerId == user).head? with
    | none => .error (.notFound "Job not found.")
    | some existing =>
      if inp.output.isNone && inp.status.isNone then
        .ok (existing, db)
      else
        .ok (applyJobUpdate inp
               (((db.conceptJobs.filter fun j => j.id == inp.id).head?).getD
                 existing),
             { db with conceptJobs := db.conceptJobs.map fun j =>
                 if j.id == inp.id then applyJobUpdate inp j else j })

/-- Optional filters of listJobs. -/
structure ListJobsInput where
  conceptId : Option Nat
  status : Option JStatus
deriving DecidableEq

/-- The filter predicate of listJobs over one Job: a truthy conceptId must
be in the allowed set (a falsy one always passes), and the status must
match the optional status filter. -/
def jobMatches (allowed : List Nat) (stf : Option JStatus)
    (j : ConceptJob) : Bool :=
  (match j.conceptId with
   | some cid => if cid != 0 then allowed.contains cid else true
   | none => true) &&
  (match stf with
   | some st => j.status == st
   | none => true)

/-- listJobs: loads the caller's Concepts; with a truthy conceptId filter,
narrows them to that id and throws NOT_FOUND when none remains; builds the
set of allowed concept ids; loads the caller's Jobs and keeps those whose
truthy conceptId is allowed (a falsy conceptId always passes) and whose
status matches the optional status filter.  Read-only. -/
def listJobs (inp : Option ListJobsInput) (ctx : Option String) (db : DB) :
    Except ActionError (List ConceptJob) :=
  match requireUser ctx with
  | .error e => .error e
  | .ok user =>
    let mine := db.concepts.filter fun c => c.ownerId == user
    let fcid := inp.bind fun i => i.conceptId
    let narrowed :=
      if truthyNum fcid then mine.filter fun c => c.id == fcid.getD 0
      else mine
    if truthyNum fcid && narrowed.isEmpty then
      .error (.notFound "Concept not found.")
    else
      let allowed := narrowed.map fun c => c.id
      let jobs := db.conceptJobs.filter fun j => j.ownerId == user
      .ok (jobs.filter
        (jobMatches allowed (inp.bind fun i => i.status)))

/-! Helper lemmas and shared sample data. -/

theorem ownedConcept_eq_none_of_not_owned (db : DB) (cid : Nat) (u : String)
    (h : ∀ c ∈ db.concepts, c.id = cid → c.ownerId ≠ u) :
    ownedConcept db cid u = none := by
  unfold ownedConcept
  rw [List.head?_eq_none_iff, List.filter_eq_nil_iff]
  intro c hc
  simp only [Bool.and_eq_true, beq_iff_eq, not_and]
  exact h c hc

/-- A sample Concept owned by alice, used to instantiate witnesses. -/
def aliceConcept : Concept :=
  { id := 1, ownerId := "alice", title := "Big-O", description := none
    subject := none, topic := none, tags := none
    difficulty := Difficulty.beginner, status := CStatus.draft
    createdAt := 0, updatedAt := 0 }

/-- A sample database holding only aliceConcept. -/
def aliceDB : DB := { emptyDB with concepts := [aliceConcept], nextConceptId := 2 }

/-- A createJob input that supplies conceptId 0 and nothing else. -/
def zeroConceptJobInput : CreateJobInput :=
  { conceptId := some 0, jobType := none, input := none, output := none
    status := none }

/-! Claim C1. -/

/-- Claim C1 counterexample: in a database holding no Concept row at all (in
particular none with id 0), createJob with conceptId 0 supplied succeeds and
inserts a Job, instead of failing NotFound as the claim requires for every
concept id whose row does not exist. -/
theorem c1_counterexample :
    emptyDB.concepts = [] ∧
    createJob zeroConceptJobInput (some "u") 0 emptyDB =
      .ok ({ id := 1, conceptId := some 0, ownerId := "u"
             jobType := JobType.step_breakdown, input := none, output := none
             status := JStatus.pending, createdAt := 0 },
           { emptyDB with
               conceptJobs := [{ id := 1, conceptId := some 0, ownerId := "u"
                                 jobType := JobType.step_breakdown, input := none
                                 output := none, status := JStatus.pending
                                 createdAt := 0 }]
               nextJobId := 2 }) := by
  exact ⟨rfl, rfl⟩

/-- Claim C1 (amended): for every NONZERO concept id whose Concept row either
does not exist or has an ownerId different from the caller, each of
updateConcept, archiveConcept, getConceptWithDetails, saveStep, saveCheck,
deleteStep, deleteCheck and createJob (with that conceptId supplied) fails
with the same NotFound error, whether the row is absent or owned by another
user.  (createJob treats a supplied conceptId of 0 as absent and does not
fail, which forces the nonzero restriction.) -/
theorem c1_amended_scoped_ops_fail_notFound (u : String) (cid now : Nat)
    (db : DB) (hcid : cid ≠ 0)
    (h : ∀ c ∈ db.concepts, c.id = cid → c.ownerId ≠ u) :
    (∀ inp : UpdateConceptInput, inp.id = cid →
       updateConcept inp (some u) now db =
         .error (.notFound "Concept not found.")) ∧
    archiveConcept cid (some u) now db =
      .error (.notFound "Concept not found.") ∧
    getConceptWithDetails cid (some u) db =
      .error (.notFound "Concept not found.") ∧
    (∀ inp : SaveStepInput, inp.conceptId = cid →
       saveStep inp (some u) now db = .error (.notFound "Concept not found.")) ∧
    (∀ inp : SaveCheckInput, inp.conceptId = cid →
       saveCheck inp (some u) now db =
         .error (.notFound "Concept not found.")) ∧
    (∀ i : Nat, deleteStep i cid (some u) db =
       .error (.notFound "Concept not found.")) ∧
    (∀ i : Nat, deleteCheck i cid (some u) db =
       .error (.notFound "Concept not found.")) ∧
    (∀ inp : CreateJobInput, inp.conceptId = some cid →
       createJob inp (some u) now db =
         .error (.notFound "Concept not found.")) := by
  have hnone := ownedConcept_eq_none_of_not_owned db cid u h
  refine ⟨?_, ?_, ?_, ?_, ?_, ?_, ?_, ?_⟩
  · intro inp hinp
    simp [updateConcept, requireUser, hinp, hnone]
  · simp [archiveConcept, requireUser, hnone]
  · simp [getConceptWithDetails, requireUser, hnone]
  · intro inp hinp
    simp [saveStep, requireUser, hinp, hnone]
  · intro inp hinp
    simp [saveCheck, requireUser, hinp, hnone]
  · intro i
    simp [deleteStep, requireUser, hnone]
  · intro i
    simp [deleteCheck, requireUser, hnone]
  · intro inp hinp
    simp [createJob, requireUser, hinp, hnone, hcid]

/-- Claim C1 witness: concept id 1 exists but belongs to alice, and the
caller bob receives the NotFound failure from archiveConcept. -/
theorem c1_witness :
    archiveConcept 1 (some "bob") 0 aliceDB =
      .error (.notFound "Concept not found.") :=
  (c1_amended_scoped_ops_fail_notFound "bob" 1 0 aliceDB (by decide)
      (by decide)).2.1

/-! Claim C7. -/

/-- Claim C7: every successfully created Job carries jobType
step_breakdown whenever jobType was omitted, and status pending whenever
status was omitted — each default independently of whether the other field
was supplied — and pending differs from the declared column default
(completed) of the ConceptJobs table. -/
theorem c7_createJob_defaults (u : String) (inp : CreateJobInput)
    (now : Nat) (db db2 : DB) (j : ConceptJob)
    (hok : createJob inp (some u) now db = .ok (j, db2)) :
    (inp.jobType = none → j.jobType = JobType.step_breakdown) ∧
    (inp.status = none → j.status = JStatus.pending) ∧
    conceptJobsStatusColumnDefault = JStatus.completed ∧
    (inp.status = none → j.status ≠ conceptJobsStatusColumnDefault) := by
  simp only [createJob, requireUser] at hok
  split at hok
  · simp only [Except.ok.injEq, Prod.mk.injEq] at hok
    have hj := hok.1
    subst hj
    refine ⟨?_, ?_, rfl, ?_⟩
    · intro hjt
      simp [newJobRow, hjt]
    · intro hst
      simp [newJobRow, hst]
    · intro hst
      simp [newJobRow, hst, conceptJobsStatusColumnDefault]
  · exact absurd hok (by simp)

/-- A createJob input omitting jobType while supplying status. -/
def jobTypeOmittedInput : CreateJobInput :=
  { conceptId := none, jobType := none, input := none, output := none
    status := some JStatus.failed }

/-- A createJob input supplying jobType while omitting status. -/
def statusOmittedInput : CreateJobInput :=
  { conceptId := none, jobType := some JobType.analogy, input := none
    output := none, status := none }

/-- Claim C7 witness: the jobType default applies while status is
supplied, and the status default applies while jobType is supplied. -/
theorem c7_witness :
    (newJobRow jobTypeOmittedInput "u" 0 emptyDB).jobType =
      JobType.step_breakdown ∧
    (newJobRow statusOmittedInput "u" 0 emptyDB).status =
      JStatus.pending := by
  have hA := c7_createJob_defaults "u" jobTypeOmittedInput 0 emptyDB
    { emptyDB with
        conceptJobs := [newJobRow jobTypeOmittedInput "u" 0 emptyDB]
        nextJobId := 2 }
    (newJobRow jobTypeOmittedInput "u" 0 emptyDB) rfl
  have hB := c7_createJob_defaults "u" statusOmittedInput 0 emptyDB
    { emptyDB with
        conceptJobs := [newJobRow statusOmittedInput "u" 0 emptyDB]
        nextJobId := 2 }
    (newJobRow statusOmittedInput "u" 0 emptyDB) rfl
  exact ⟨hA.1 rfl, hB.2.1 rfl⟩

/-! Claim C9. -/

/-- Claim C9: listMyConcepts treats an empty-string subject or topic filter
exactly as an absent filter, because the filter clause tests the value for
truthiness and the empty string is falsy. -/
theorem c9_empty_string_filter_matches_all (u : String) (db : DB)
    (st : Option CStatus) (sub tp : Option String) :
    listMyConcepts (some { status := st, subject := some "", topic := tp })
        (some u) db =
      listMyConcepts (some { status := st, subject := none, topic := tp })
        (some u) db ∧
    listMyConcepts (some { status := st, subject := sub, topic := some "" })
        (some u) db =
      listMyConcepts (some { status := st, subject := sub, topic := none })
        (some u) db := by
  constructor <;> rfl

/-! Claim C10. -/

/-- Claim C10: a supplied numeric 0 is treated as absent: saveStep and
saveCheck with id 0 insert a fresh row (no update attempt, no NotFound on
the id), and createJob with conceptId 0 skips the ownership check entirely
(no hypothesis about db.concepts is needed) and inserts a Job whose
conceptId is 0. -/
theorem c10_zero_treated_as_absent (u : String) (now : Nat) (db : DB) :
    (∀ inp : SaveStepInput, inp.id = some 0 →
      (ownedConcept db inp.conceptId u).isSome = true →
      ∃ r db2, saveStep inp (some u) now db = .ok (r, db2) ∧
        r.id = db.nextStepId ∧
        db2.conceptSteps = db.conceptSteps ++ [r]) ∧
    (∀ inp : SaveCheckInput, inp.id = some 0 →
      (ownedConcept db inp.conceptId u).isSome = true →
      ∃ r db2, saveCheck inp (some u) now db = .ok (r, db2) ∧
        r.id = db.nextCheckId ∧
        db2.conceptChecks = db.conceptChecks ++ [r]) ∧
    (∀ inp : CreateJobInput, inp.conceptId = some 0 →
      ∃ j db2, createJob inp (some u) now db = .ok (j, db2) ∧
        j.conceptId = some 0 ∧
        db2.conceptJobs = db.conceptJobs ++ [j]) := by
  refine ⟨?_, ?_, ?_⟩
  · intro inp hid hown
    obtain ⟨c0, hc0⟩ := Option.isSome_iff_exists.mp hown
    refine ⟨newStepRow inp now db,
            { db with conceptSteps := db.conceptSteps ++ [newStepRow inp now db]
                      nextStepId := db.nextStepId + 1 }, ?_, rfl, rfl⟩
    simp [saveStep, requireUser, hc0, hid, truthyNum]
  · intro inp hid hown
    obtain ⟨c0, hc0⟩ := Option.isSome_iff_exists.mp hown
    refine ⟨newCheckRow inp now db,
            { db with conceptChecks := db.conceptChecks ++ [newCheckRow inp now db]
                      nextCheckId := db.nextCheckId + 1 }, ?_, rfl, rfl⟩
    simp [saveCheck, requireUser, hc0, hid, truthyNum]
  · intro inp hcid
    refine ⟨newJobRow inp u now db,
            { db with conceptJobs := db.conceptJobs ++ [newJobRow inp u now db]
                      nextJobId := db.nextJobId + 1 }, ?_, ?_, rfl⟩
    · simp [createJob, requireUser, hcid]
    · simp [newJobRow, hcid]

/-- Claim C10 witness: saveStep with id 0 against aliceDB inserts a new
step. -/
theorem c10_witness :
    ∃ r db2,
      saveStep { id := some 0, conceptId := 1, stepNumber := none
                 stepType := none, heading := none, content := "intro text"
                 «example» := none, analogy := none }
          (some "alice") 3 aliceDB = .ok (r, db2) ∧
      r.id = aliceDB.nextStepId ∧
      db2.conceptSteps = aliceDB.conceptSteps ++ [r] :=
  (c10_zero_treated_as_absent "alice" 3 aliceDB).1
    { id := some 0, conceptId := 1, stepNumber := none, stepType := none
      heading := none, content := "intro text", «example» := none
      analogy := none }
    rfl (by decide)

/-! Claim C3. -/

/-- Spec-side characterization of a single-row updateConcept write: id,
ownerId and createdAt are untouched, updatedAt becomes now, and each mutable
column changes exactly when the corresponding input field was provided. -/
def ConceptUpdatedPerInput (inp : UpdateConceptInput) (now : Nat)
    (old new : Concept) : Prop :=
  new.id = old.id ∧ new.ownerId = old.ownerId ∧ new.createdAt = old.createdAt ∧
  new.updatedAt = now ∧
  (inp.title = none → new.title = old.title) ∧
  (∀ v, inp.title = some v → new.title = v) ∧
  (inp.description = none → new.description = old.description) ∧
  (∀ v, inp.description = some v → new.description = some v) ∧
  (inp.subject = none → new.subject = old.subject) ∧
  (∀ v, inp.subject = some v → new.subject = some v) ∧
  (inp.topic = none → new.topic = old.topic) ∧
  (∀ v, inp.topic = some v → new.topic = some v) ∧
  (inp.tags = none → new.tags = old.tags) ∧
  (∀ v, inp.tags = some v → new.tags = some v) ∧
  (inp.difficulty = none → new.difficulty = old.difficulty) ∧
  (∀ v, inp.difficulty = some v → new.difficulty = v) ∧
  (inp.status = none → new.status = old.status) ∧
  (∀ v, inp.status = some v → new.status = v)

theorem applyConceptUpdate_perInput (inp : UpdateConceptInput) (now : Nat)
    (c : Concept) :
    ConceptUpdatedPerInput inp now c (applyConceptUpdate inp now c) := by
  unfold ConceptUpdatedPerInput applyConceptUpdate mergeOpt
  refine ⟨rfl, rfl, rfl, rfl, ?_, ?_, ?_, ?_, ?_, ?_, ?_, ?_, ?_, ?_, ?_, ?_,
          ?_, ?_⟩ <;>
    first
      | (intro h; simp [h])
      | (intro v hv; simp [hv])

/-- Claim C3: for an owned Concept, updateConcept with no provided field
returns the existing record and performs no write at all; with at least one
provided field it returns an updated record in which exactly the provided
fields changed and updatedAt is now, writes the same transformation to the
matching stored rows, leaves non-matching rows untouched, and leaves every
other table untouched. -/
theorem c3_updateConcept_frame (u : String) (inp : UpdateConceptInput)
    (now : Nat) (db : DB) (c : Concept)
    (hfind : ownedConcept db inp.id u = some c) :
    (hasConceptUpdates inp = false →
      updateConcept inp (some u) now db = .ok (c, db)) ∧
    (hasConceptUpdates inp = true →
      ∃ r db2, updateConcept inp (some u) now db = .ok (r, db2) ∧
        ConceptUpdatedPerInput inp now c r ∧
        db2.conceptSteps = db.conceptSteps ∧
        db2.conceptChecks = db.conceptChecks ∧
        db2.conceptJobs = db.conceptJobs ∧
        List.Forall₂ (fun old new =>
            (old.id = inp.id ∧ old.ownerId = u →
              ConceptUpdatedPerInput inp now old new) ∧
            (¬(old.id = inp.id ∧ old.ownerId = u) → new = old))
          db.concepts db2.concepts) := by
  constructor
  · intro hno
    simp [updateConcept, requireUser, hfind, hno]
  · intro hyes
    refine ⟨applyConceptUpdate inp now c,
            { db with concepts := db.concepts.map fun x =>
                if x.id == inp.id && x.ownerId == u then
                  applyConceptUpdate inp now x
                else x }, ?_,
            applyConceptUpdate_perInput inp now c, rfl, rfl, rfl, ?_⟩
    · simp [updateConcept, requireUser, hfind, hyes]
    · rw [List.forall₂_map_right_iff, List.forall₂_same]
      intro x hx
      by_cases hmatch : x.id = inp.id ∧ x.ownerId = u
      · have hb : (x.id == inp.id && x.ownerId == u) = true := by
          simp [hmatch.1, hmatch.2]
        rw [if_pos hb]
        exact ⟨fun _ => applyConceptUpdate_perInput inp now x,
               fun hcon => absurd hmatch hcon⟩
      · have hb : ¬((x.id == inp.id && x.ownerId == u) = true) := by
          simp only [Bool.and_eq_true, beq_iff_eq]
          exact hmatch
        rw [if_neg hb]
        exact ⟨fun hcon => absurd hcon hmatch, fun _ => rfl⟩

/-- An updateConcept input that provides no mutable field. -/
def noFieldUpdate : UpdateConceptInput :=
  { id := 1, title := none, description := none, subject := none
    topic := none, tags := none, difficulty := none, status := none }

/-- Claim C3 witness: the no-field update of alice's concept returns it
unchanged with an unchanged database. -/
theorem c3_witness :
    updateConcept noFieldUpdate (some "alice") 7 aliceDB =
      .ok (aliceConcept, aliceDB) :=
  (c3_updateConcept_frame "alice" noFieldUpdate 7 aliceDB aliceConcept
      rfl).1 rfl

/-! Claim C8. -/

/-- Spec-side characterization of a single-row updateJob write: id,
conceptId, ownerId, jobType, input and createdAt are untouched, and output
and status change exactly when provided. -/
def JobUpdatedPerInput (inp : UpdateJobInput) (old new : ConceptJob) : Prop :=
  new.id = old.id ∧ new.conceptId = old.conceptId ∧
  new.ownerId = old.ownerId ∧ new.jobType = old.jobType ∧
  new.input = old.input ∧ new.createdAt = old.createdAt ∧
  (inp.output = none → new.output = old.output) ∧
  (∀ v, inp.output = some v → new.output = some v) ∧
  (inp.status = none → new.status = old.status) ∧
  (∀ v, inp.status = some v → new.status = v)

theorem applyJobUpdate_perInput (inp : UpdateJobInput) (j : ConceptJob) :
    JobUpdatedPerInput inp j (applyJobUpdate inp j) := by
  unfold JobUpdatedPerInput applyJobUpdate mergeOpt
  refine ⟨rfl, rfl, rfl, rfl, rfl, rfl, ?_, ?_, ?_, ?_⟩ <;>
    first
      | (intro h; simp [h])
      | (intro v hv; simp [hv])

/-- Claim C8: for a caller-owned Job, updateJob with neither output nor
status provided returns the existing record and performs no write; otherwise
it changes at most output and status (and only the provided ones) on the
rows matching the id, returns such an updated row, leaves rows with other
ids untouched and leaves every other table untouched. -/
theorem c8_updateJob_frame (u : String) (inp : UpdateJobInput) (db : DB)
    (j0 : ConceptJob)
    (hfind : (db.conceptJobs.filter fun j =>
        j.id == inp.id && j.ownerId == u).head? = some j0) :
    (inp.output = none ∧ inp.status = none →
      updateJob inp (some u) db = .ok (j0, db)) ∧
    (¬(inp.output = none ∧ inp.status = none) →
      ∃ r db2, updateJob inp (some u) db = .ok (r, db2) ∧
        (∃ old, old ∈ db.conceptJobs ∧ old.id = inp.id ∧
          JobUpdatedPerInput inp old r) ∧
        db2.concepts = db.concepts ∧
        db2.conceptSteps = db.conceptSteps ∧
        db2.conceptChecks = db.conceptChecks ∧
        List.Forall₂ (fun old new =>
            (old.id = inp.id → JobUpdatedPerInput inp old new) ∧
            (old.id ≠ inp.id → new = old))
          db.conceptJobs db2.conceptJobs) := by
  have hj0mem : j0 ∈ db.conceptJobs.filter fun j =>
      j.id == inp.id && j.ownerId == u := List.mem_of_mem_head? hfind
  rw [List.mem_filter, Bool.and_eq_true, beq_iff_eq, beq_iff_eq] at hj0mem
  constructor
  · intro hno
    simp [updateJob, requireUser, hfind, hno.1, hno.2]
  · intro hsome
    have hcond : (inp.output.isNone && inp.status.isNone) = false := by
      rw [Bool.and_eq_false_iff]
      by_cases ho : inp.output = none
      · right
        rcases hst : inp.status with _ | v
        · exact absurd ⟨ho, hst⟩ hsome
        · rfl
      · left
        rcases ho2 : inp.output with _ | v
        · exact absurd ho2 ho
        · rfl
    rcases hbyid : (db.conceptJobs.filter fun j => j.id == inp.id).head? with
        _ | o
    · exfalso
      rw [List.head?_eq_none_iff, List.filter_eq_nil_iff] at hbyid
      exact hbyid j0 hj0mem.1 (by simp [hj0mem.2.1])
    · have homem := List.mem_of_mem_head? hbyid
      rw [List.mem_filter, beq_iff_eq] at homem
      refine ⟨applyJobUpdate inp o,
              { db with conceptJobs := db.conceptJobs.map fun j =>
                  if j.id == inp.id then applyJobUpdate inp j else j }, ?_,
              ⟨o, homem.1, homem.2, applyJobUpdate_perInput inp o⟩,
              rfl, rfl, rfl, ?_⟩
      · simp [updateJob, requireUser, hfind, hcond, hbyid]
      · rw [List.forall₂_map_right_iff, List.forall₂_same]
        intro x hx
        by_cases hmatch : x.id = inp.id
        · have hb : (x.id == inp.id) = true := by simp [hmatch]
          rw [if_pos hb]
          exact ⟨fun _ => applyJobUpdate_perInput inp x,
                 fun hcon => absurd hmatch hcon⟩
        · have hb : ¬((x.id == inp.id) = true) := by
            simp only [beq_iff_eq]
            exact hmatch
          rw [if_neg hb]
          exact ⟨fun hcon => absurd hcon hmatch, fun _ => rfl⟩

/-- A sample Job owned by alice referencing her concept. -/
def aliceJob : ConceptJob :=
  { id := 1, conceptId := some 1, ownerId := "alice"
    jobType := JobType.summary, input := none, output := none
    status := JStatus.pending, createdAt := 0 }

/-- A sample database with alice's concept and job. -/
def aliceJobDB : DB :=
  { emptyDB with concepts := [aliceConcept], conceptJobs := [aliceJob]
                 nextConceptId := 2, nextJobId := 2 }

/-- Claim C8 witness: the no-field updateJob of alice's job returns it
unchanged with an unchanged database. -/
theorem c8_witness :
    updateJob { id := 1, output := none, status := none } (some "alice")
        aliceJobDB = .ok (aliceJob, aliceJobDB) :=
  (c8_updateJob_frame "alice" { id := 1, output := none, status := none }
      aliceJobDB aliceJob rfl).1 ⟨rfl, rfl⟩

/-! Claim C4. -/

/-- A sample Step of alice's concept with a non-default stepNumber. -/
def aliceStep : ConceptStep :=
  { id := 1, conceptId := 1, stepNumber := 2, stepType := StepType.intro
    heading := none, content := "intro text", «example» := none
    analogy := none, createdAt := 0 }

/-- A sample database with alice's concept and step. -/
def aliceStepDB : DB :=
  { emptyDB with concepts := [aliceConcept], conceptSteps := [aliceStep]
                 nextConceptId := 2, nextStepId := 2 }

/-- The resave input of the spec scenario: same id, content revised,
stepNumber not resupplied. -/
def reviseStepInput : SaveStepInput :=
  { id := some 1, conceptId := 1, stepNumber := none, stepType := none
    heading := none, content := "revised", «example» := none
    analogy := none }

/-- Claim C5: saveStep (respectively saveCheck) invoked with the nonzero id
of an existing row whose stored conceptId differs from the supplied owned
conceptId fails with NotFound; the handler throws before any write, so no
row is changed. -/
theorem c5_cross_concept_reassignment_blocked (u : String) (now : Nat)
    (db : DB) :
    (∀ (inp : SaveStepInput) (i : Nat) (st : ConceptStep),
      inp.id = some i → i ≠ 0 →
      (ownedConcept db inp.conceptId u).isSome = true →
      (db.conceptSteps.filter fun s => s.id == i).head? = some st →
      st.conceptId ≠ inp.conceptId →
      saveStep inp (some u) now db = .error (.notFound "Step not found.")) ∧
    (∀ (inp : SaveCheckInput) (i : Nat) (ck : ConceptCheck),
      inp.id = some i → i ≠ 0 →
      (ownedConcept db inp.conceptId u).isSome = true →
      (db.conceptChecks.filter fun x => x.id == i).head? = some ck →
      ck.conceptId ≠ inp.conceptId →
      saveCheck inp (some u) now db =
        .error (.notFound "Check not found.")) := by
  constructor
  · intro inp i st hid hi0 hown hfind hne
    obtain ⟨c0, hc0⟩ := Option.isSome_iff_exists.mp hown
    simp [saveStep, requireUser, hc0, hid, truthyNum, hi0, hfind, hne]
  · intro inp i ck hid hi0 hown hfind hne
    obtain ⟨c0, hc0⟩ := Option.isSome_iff_exists.mp hown
    simp [saveCheck, requireUser, hc0, hid, truthyNum, hi0, hfind, hne]

/-- A second Concept owned by alice, target of an attempted reassignment. -/
def aliceConcept2 : Concept := { aliceConcept with id := 2 }

/-- A database with alice's two concepts and her step under concept 1. -/
def aliceTwoConceptDB : DB :=
  { emptyDB with concepts := [aliceConcept, aliceConcept2]
                 conceptSteps := [aliceStep], nextConceptId := 3
                 nextStepId := 2 }

/-- Claim C5 witness: resaving step 1 (stored under concept 1) with
conceptId 2 supplied fails with NotFound. -/
theorem c5_witness :
    saveStep { reviseStepInput with conceptId := 2 } (some "alice") 9
        aliceTwoConceptDB = .error (.notFound "Step not found.") :=
  (c5_cross_concept_reassignment_blocked "alice" 9 aliceTwoConceptDB).1
    { reviseStepInput with conceptId := 2 } 1 aliceStep rfl (by decide)
    (by decide) rfl (by decide)

/-! Claim C6. -/

/-- Claim C6: for an owned Concept, deleteStep (respectively deleteCheck)
fails with NotFound when no row matches both the supplied id and conceptId
(the handler throws before any write, so the state is unchanged); in
particular, after a successful delete the same call against the resulting
database fails with NotFound. -/
theorem c6_delete_notFound_on_no_match (u : String) (i cid : Nat) (db : DB) :
    ((ownedConcept db cid u).isSome = true →
      (∀ s ∈ db.conceptSteps, ¬(s.id = i ∧ s.conceptId = cid)) →
      deleteStep i cid (some u) db = .error (.notFound "Step not found.")) ∧
    (∀ r db2, deleteStep i cid (some u) db = .ok (r, db2) →
      deleteStep i cid (some u) db2 =
        .error (.notFound "Step not found.")) ∧
    ((ownedConcept db cid u).isSome = true →
      (∀ x ∈ db.conceptChecks, ¬(x.id = i ∧ x.conceptId = cid)) →
      deleteCheck i cid (some u) db =
        .error (.notFound "Check not found.")) ∧
    (∀ r db2, deleteCheck i cid (some u) db = .ok (r, db2) →
      deleteCheck i cid (some u) db2 =
        .error (.notFound "Check not found.")) := by
  refine ⟨?_, ?_, ?_, ?_⟩
  · intro hown hnone
    obtain ⟨c0, hc0⟩ := Option.isSome_iff_exists.mp hown
    have hnil : db.conceptSteps.filter
        (fun s => s.id == i && s.conceptId == cid) = [] := by
      rw [List.filter_eq_nil_iff]
      intro s hs
      simp only [Bool.and_eq_true, beq_iff_eq, not_and]
      intro h1 h2
      exact hnone s hs ⟨h1, h2⟩
    simp [deleteStep, requireUser, hc0, hnil]
  · intro r db2 hok
    simp only [deleteStep, requireUser] at hok
    rcases hc : ownedConcept db cid u with _ | c0
    · rw [hc] at hok
      exact absurd hok (by simp)
    · rw [hc] at hok
      rcases hd : (db.conceptSteps.filter
          fun s => s.id == i && s.conceptId == cid).head? with _ | d
      · rw [hd] at hok
        exact absurd hok (by simp)
      · rw [hd] at hok
        simp only [Except.ok.injEq, Prod.mk.injEq] at hok
        obtain ⟨hr, hdb2⟩ := hok
        have hc2 : ownedConcept db2 cid u = some c0 := by
          rw [← hdb2]
          exact hc
        have hnil2 : db2.conceptSteps.filter
            (fun s => s.id == i && s.conceptId == cid) = [] := by
          rw [← hdb2]
          simp only []
          rw [List.filter_filter]
          rw [List.filter_eq_nil_iff]
          intro s hs
          simp
        simp [deleteStep, requireUser, hc2, hnil2]
  · intro hown hnone
    obtain ⟨c0, hc0⟩ := Option.isSome_iff_exists.mp hown
    have hnil : db.conceptChecks.filter
        (fun x => x.id == i && x.conceptId == cid) = [] := by
      rw [List.filter_eq_nil_iff]
      intro x hx
      simp only [Bool.and_eq_true, beq_iff_eq, not_and]
      intro h1 h2
      exact hnone x hx ⟨h1, h2⟩
    simp [deleteCheck, requireUser, hc0, hnil]
  · intro r db2 hok
    simp only [deleteCheck, requireUser] at hok
    rcases hc : ownedConcept db cid u with _ | c0
    · rw [hc] at hok
      exact absurd hok (by simp)
    · rw [hc] at hok
      rcases hd : (db.conceptChecks.filter
          fun x => x.id == i && x.conceptId == cid).head? with _ | d
      · rw [hd] at hok
        exact absurd hok (by simp)
      · rw [hd] at hok
        simp only [Except.ok.injEq, Prod.mk.injEq] at hok
        obtain ⟨hr, hdb2⟩ := hok
        have hc2 : ownedConcept db2 cid u = some c0 := by
          rw [← hdb2]
          exact hc
        have hnil2 : db2.conceptChecks.filter
            (fun x => x.id == i && x.conceptId == cid) = [] := by
          rw [← hdb2]
          simp only []
          rw [List.filter_filter]
          rw [List.filter_eq_nil_iff]
          intro x hx
          simp
        simp [deleteCheck, requireUser, hc2, hnil2]

/-- Claim C6 witness: deleting a never-existing step id under alice's
concept fails with NotFound, and a second delete of alice's step right
after a successful delete fails with NotFound. -/
theorem c6_witness :
    deleteStep 5 1 (some "alice") aliceDB =
      .error (.notFound "Step not found.") ∧
    deleteStep 1 1 (some "alice")
        { aliceStepDB with conceptSteps := [] } =
      .error (.notFound "Step not found.") :=
  ⟨(c6_delete_notFound_on_no_match "alice" 5 1 aliceDB).1 (by decide)
      (by decide),
   (c6_delete_notFound_on_no_match "alice" 1 1 aliceStepDB).2.1 aliceStep
      { aliceStepDB with conceptSteps := [] } rfl⟩

/-! Claim C2. -/

/-- A caller-owned Job whose conceptId is set to 0, a reference no Concept
can satisfy. -/
def staleJob : ConceptJob :=
  { id := 1, conceptId := some 0, ownerId := "u", jobType := JobType.other
    input := none, output := none, status := JStatus.pending, createdAt := 0 }

/-- A database holding staleJob and no Concept at all. -/
def staleDB : DB := { emptyDB with conceptJobs := [staleJob] }

/-- Claim C2 counterexample: staleJob's conceptId is set (to 0) and belongs
to no Concept owned by the caller (there are no Concepts at all), yet
listJobs returns it. -/
theorem c2_counterexample :
    staleDB.concepts = [] ∧ staleJob.conceptId = some 0 ∧
    listJobs none (some "u") staleDB = .ok [staleJob] :=
  ⟨rfl, rfl, rfl⟩

theorem mem_filtered_jobs (jobsrc : List ConceptJob) (u : String)
    (allowed : List Nat) (stf : Option JStatus) (j : ConceptJob) :
    (j ∈ (jobsrc.filter fun j2 => j2.ownerId == u).filter
        (jobMatches allowed stf)) ↔
      j ∈ jobsrc ∧ j.ownerId = u ∧
      (∀ cid, j.conceptId = some cid → cid ≠ 0 → cid ∈ allowed) ∧
      (∀ st, stf = some st → j.status = st) := by
  rw [List.mem_filter, List.mem_filter]
  unfold jobMatches
  constructor
  · rintro ⟨⟨hmem, hown⟩, hpred⟩
    rw [Bool.and_eq_true] at hpred
    refine ⟨hmem, by simpa using hown, ?_, ?_⟩
    · intro cid hcid hcz
      have h1 := hpred.1
      rw [hcid] at h1
      simp only [] at h1
      rw [if_pos (by simpa using hcz)] at h1
      simpa [List.elem_iff] using h1
    · intro st hst
      have h2 := hpred.2
      rw [hst] at h2
      simpa using h2
  · rintro ⟨hmem, hown, hcc, hstc⟩
    refine ⟨⟨hmem, by simpa using hown⟩, ?_⟩
    rw [Bool.and_eq_true]
    constructor
    · rcases hjc : j.conceptId with _ | cid
      · simp
      · by_cases hcz : cid = 0
        · subst hcz
          simp
        · have hmemallowed := hcc cid hjc hcz
          simp [hcz, List.elem_iff, hmemallowed]
    · rcases hstf2 : stf with _ | st
      · simp
      · simp [hstc st hstf2]

theorem mem_ownedIds_iff (db : DB) (u : String) (cid : Nat) :
    (cid ∈ (db.concepts.filter fun c => c.ownerId == u).map fun c => c.id) ↔
      ∃ c, c ∈ db.concepts ∧ c.id = cid ∧ c.ownerId = u := by
  simp only [List.mem_map, List.mem_filter, beq_iff_eq]
  constructor
  · rintro ⟨c, ⟨hc, ho⟩, hid⟩
    exact ⟨c, hc, hid, ho⟩
  · rintro ⟨c, hc, hid, ho⟩
    exact ⟨c, ⟨hc, ho⟩, hid⟩

theorem mem_narrowedIds_iff (db : DB) (u : String) (k cid : Nat) :
    (cid ∈ ((db.concepts.filter fun c => c.ownerId == u).filter
        fun c => c.id == k).map fun c => c.id) ↔
      (∃ c, c ∈ db.concepts ∧ c.id = cid ∧ c.ownerId = u) ∧ cid = k := by
  simp only [List.mem_map, List.mem_filter, beq_iff_eq]
  constructor
  · rintro ⟨c, ⟨⟨hc, ho⟩, hk⟩, hid⟩
    exact ⟨⟨c, hc, hid, ho⟩, by rw [← hid, hk]⟩
  · rintro ⟨⟨c, hc, hid, ho⟩, hk⟩
    exact ⟨c, ⟨⟨hc, ho⟩, by rw [hid, hk]⟩, hid⟩

/-- Claim C2 (amended): a successful listJobs call returns exactly the Jobs
whose ownerId is the caller, whose conceptId, when set AND NONZERO, belongs
to a Concept owned by the caller and equals a given nonzero conceptId
filter, and whose status matches the optional status filter; Jobs whose
conceptId is absent or 0 always pass the concept check.  (The handler tests
conceptId for truthiness, so the stored reference 0 and the filter 0 are
treated as absent, which forces the nonzero restrictions.) -/
theorem c2_amended_listJobs_characterization (u : String)
    (inp : Option ListJobsInput) (db : DB) (l : List ConceptJob)
    (j : ConceptJob) (hok : listJobs inp (some u) db = .ok l) :
    j ∈ l ↔
      j ∈ db.conceptJobs ∧ j.ownerId = u ∧
      (∀ cid : Nat, j.conceptId = some cid → cid ≠ 0 →
        (∃ c, c ∈ db.concepts ∧ c.id = cid ∧ c.ownerId = u) ∧
        (∀ fcid : Nat, inp.bind (fun i2 => i2.conceptId) = some fcid →
          fcid ≠ 0 → cid = fcid)) ∧
      (∀ st : JStatus, inp.bind (fun i2 => i2.status) = some st →
        j.status = st) := by
  rcases hfc : inp.bind (fun i2 => i2.conceptId) with _ | k
  · have heq : listJobs inp (some u) db =
        .ok ((db.conceptJobs.filter fun j2 => j2.ownerId == u).filter
          (jobMatches ((db.concepts.filter fun c => c.ownerId == u).map
              fun c => c.id)
            (inp.bind fun i2 => i2.status))) := by
      simp [listJobs, requireUser, hfc, truthyNum]
    rw [hok, Except.ok.injEq] at heq
    subst heq
    rw [mem_filtered_jobs]
    constructor
    · rintro ⟨hmem, hown, hcc, hstc⟩
      refine ⟨hmem, hown, ?_, hstc⟩
      intro cid hcid hcz
      refine ⟨(mem_ownedIds_iff db u cid).mp (hcc cid hcid hcz), ?_⟩
      intro fcid hfcid
      exact absurd hfcid (by simp)
    · rintro ⟨hmem, hown, hcc, hstc⟩
      refine ⟨hmem, hown, ?_, hstc⟩
      intro cid hcid hcz
      exact (mem_ownedIds_iff db u cid).mpr (hcc cid hcid hcz).1
  · by_cases hk : k = 0
    · subst hk
      have heq : listJobs inp (some u) db =
          .ok ((db.conceptJobs.filter fun j2 => j2.ownerId == u).filter
            (jobMatches ((db.concepts.filter fun c => c.ownerId == u).map
                fun c => c.id)
              (inp.bind fun i2 => i2.status))) := by
        simp [listJobs, requireUser, hfc, truthyNum]
      rw [hok, Except.ok.injEq] at heq
      subst heq
      rw [mem_filtered_jobs]
      constructor
      · rintro ⟨hmem, hown, hcc, hstc⟩
        refine ⟨hmem, hown, ?_, hstc⟩
        intro cid hcid hcz
        refine ⟨(mem_ownedIds_iff db u cid).mp (hcc cid hcid hcz), ?_⟩
        intro fcid hfcid hfz
        rw [Option.some.injEq] at hfcid
        exact absurd hfcid.symm hfz
      · rintro ⟨hmem, hown, hcc, hstc⟩
        refine ⟨hmem, hown, ?_, hstc⟩
        intro cid hcid hcz
        exact (mem_ownedIds_iff db u cid).mpr (hcc cid hcid hcz).1
    · by_cases hemp : ((db.concepts.filter fun c => c.ownerId == u).filter
          fun c => c.id == k).isEmpty = true
      · have heq : listJobs inp (some u) db =
            .error (.notFound "Concept not found.") := by
          have hnil : (db.concepts.filter fun c => c.ownerId == u).filter
              (fun c => c.id == k) = [] := by
            cases hcase : (db.concepts.filter fun c => c.ownerId == u).filter
                (fun c => c.id == k) with
            | nil => rfl
            | cons a as =>
              rw [hcase] at hemp
              simp [List.isEmpty] at hemp
          rw [List.filter_eq_nil_iff] at hnil
          simp only [Bool.and_eq_true, beq_iff_eq] at hnil
          simp [listJobs, requireUser, hfc, truthyNum, hk]
          intro x hx hxk
          intro hxu
          exact hnil x (List.mem_filter.mpr ⟨hx, by simp [hxu]⟩)
            (by simp [hxk])
        rw [hok] at heq
        exact absurd heq (by simp)
      · have hemp2 : ((db.concepts.filter fun c => c.ownerId == u).filter
            fun c => c.id == k).isEmpty = false := by
          simpa using hemp
        have heq : listJobs inp (some u) db =
            .ok ((db.conceptJobs.filter fun j2 => j2.ownerId == u).filter
              (jobMatches (((db.concepts.filter fun c => c.ownerId == u).filter
                  fun c => c.id == k).map fun c => c.id)
                (inp.bind fun i2 => i2.status))) := by
          have hne : ((db.concepts.filter fun c => c.ownerId == u).filter
              fun c => c.id == k) ≠ [] := by
            intro hcon
            rw [hcon] at hemp2
            simp [List.isEmpty] at hemp2
          obtain ⟨x, hxmem⟩ := List.exists_mem_of_ne_nil _ hne
          rw [List.mem_filter] at hxmem
          obtain ⟨hx1, hxk⟩ := hxmem
          rw [List.mem_filter] at hx1
          simp [listJobs, requireUser, hfc, truthyNum, hk]
          exact ⟨x, hx1.1, by simpa using hxk, by simpa using hx1.2⟩
        rw [hok, Except.ok.injEq] at heq
        subst heq
        rw [mem_filtered_jobs]
        constructor
        · rintro ⟨hmem, hown, hcc, hstc⟩
          refine ⟨hmem, hown, ?_, hstc⟩
          intro cid hcid hcz
          have hm := (mem_narrowedIds_iff db u k cid).mp (hcc cid hcid hcz)
          refine ⟨hm.1, ?_⟩
          intro fcid hfcid hfz
          rw [Option.some.injEq] at hfcid
          rw [hm.2, hfcid]
        · rintro ⟨hmem, hown, hcc, hstc⟩
          refine ⟨hmem, hown, ?_, hstc⟩
          intro cid hcid hcz
          have hck : cid = k := (hcc cid hcid hcz).2 k rfl hk
          exact (mem_narrowedIds_iff db u k cid).mpr
            ⟨(hcc cid hcid hcz).1, hck⟩

/-- Claim C2 witness: alice's job referencing her own concept is a member
of her listJobs result, and the characterization recovers its ownership. -/
theorem c2_witness :
    aliceJob ∈ aliceJobDB.conceptJobs ∧ aliceJob.ownerId = "alice" := by
  have h := (c2_amended_listJobs_characterization "alice" none aliceJobDB
      [aliceJob] aliceJob rfl).mp (by decide)
  exact ⟨h.1, h.2.1⟩

/-!
Reachability: every database produced by the handlers from the empty
database assigns only nonzero ids (the schema auto-increments every id
from 1), which justifies the nonzero-id hypotheses used above for existing
rows.
-/

/-- One successful mutating handler invocation viewed as a transition. -/
inductive HandlerStep : DB → DB → Prop where
  | ofCreateConcept (inp : CreateConceptInput) (ctx : Option String)
      (now : Nat) (r : Concept) (db db2 : DB) :
      createConcept inp ctx now db = .ok (r, db2) → HandlerStep db db2
  | ofUpdateConcept (inp : UpdateConceptInput) (ctx : Option String)
      (now : Nat) (r : Concept) (db db2 : DB) :
      updateConcept inp ctx now db = .ok (r, db2) → HandlerStep db db2
  | ofArchiveConcept (id : Nat) (ctx : Option String) (now : Nat)
      (r : Concept) (db db2 : DB) :
      archiveConcept id ctx now db = .ok (r, db2) → HandlerStep db db2
  | ofSaveStep (inp : SaveStepInput) (ctx : Option String) (now : Nat)
      (r : ConceptStep) (db db2 : DB) :
      saveStep inp ctx now db = .ok (r, db2) → HandlerStep db db2
  | ofDeleteStep (id conceptId : Nat) (ctx : Option String)
      (r : ConceptStep) (db db2 : DB) :
      deleteStep id conceptId ctx db = .ok (r, db2) → HandlerStep db db2
  | ofSaveCheck (inp : SaveCheckInput) (ctx : Option String) (now : Nat)
      (r : ConceptCheck) (db db2 : DB) :
      saveCheck inp ctx now db = .ok (r, db2) → HandlerStep db db2
  | ofDeleteCheck (id conceptId : Nat) (ctx : Option String)
      (r : ConceptCheck) (db db2 : DB) :
      deleteCheck id conceptId ctx db = .ok (r, db2) → HandlerStep db db2
  | ofCreateJob (inp : CreateJobInput) (ctx : Option String) (now : Nat)
      (r : ConceptJob) (db db2 : DB) :
      createJob inp ctx now db = .ok (r, db2) → HandlerStep db db2
  | ofUpdateJob (inp : UpdateJobInput) (ctx : Option String)
      (r : ConceptJob) (db db2 : DB) :
      updateJob inp ctx db = .ok (r, db2) → HandlerStep db db2

/-- Databases reachable from the empty database by handler invocations. -/
inductive ReachableDB : DB → Prop where
  | empty : ReachableDB emptyDB
  | step (db db2 : DB) : ReachableDB db → HandlerStep db db2 → ReachableDB db2

/-- All auto-increment counters are at least 1 and every stored row has a
nonzero id. -/
def IdsAssigned (db : DB) : Prop :=
  1 ≤ db.nextConceptId ∧ 1 ≤ db.nextStepId ∧ 1 ≤ db.nextCheckId ∧
  1 ≤ db.nextJobId ∧
  (∀ c ∈ db.concepts, c.id ≠ 0) ∧ (∀ s ∈ db.conceptSteps, s.id ≠ 0) ∧
  (∀ x ∈ db.conceptChecks, x.id ≠ 0) ∧ (∀ j ∈ db.conceptJobs, j.id ≠ 0)

theorem idsAssigned_createConcept (inp : CreateConceptInput)
    (ctx : Option String) (now : Nat) (r : Concept) (db db2 : DB)
    (hok : createConcept inp ctx now db = .ok (r, db2))
    (h : IdsAssigned db) : IdsAssigned db2 := by
  obtain ⟨h1, h2, h3, h4, h5, h6, h7, h8⟩ := h
  rcases ctx with _ | u
  · exact absurd hok (by simp [createConcept, requireUser])
  · simp only [createConcept, requireUser] at hok
    rw [Except.ok.injEq, Prod.mk.injEq] at hok
    obtain ⟨hr, hdb2⟩ := hok
    subst hdb2
    refine ⟨by show 1 ≤ db.nextConceptId + 1; omega, h2, h3, h4, ?_,
            h6, h7, h8⟩
    intro c hc
    rw [List.mem_append] at hc
    rcases hc with hc | hc
    · exact h5 c hc
    · rw [List.mem_singleton] at hc
      subst hc
      show db.nextConceptId ≠ 0
      omega

theorem idsAssigned_updateConcept (inp : UpdateConceptInput)
    (ctx : Option String) (now : Nat) (r : Concept) (db db2 : DB)
    (hok : updateConcept inp ctx now db = .ok (r, db2))
    (h : IdsAssigned db) : IdsAssigned db2 := by
  obtain ⟨h1, h2, h3, h4, h5, h6, h7, h8⟩ := h
  rcases ctx with _ | u
  · exact absurd hok (by simp [updateConcept, requireUser])
  · simp only [updateConcept, requireUser] at hok
    split at hok
    · exact absurd hok (by simp)
    · split at hok
      · rw [Except.ok.injEq, Prod.mk.injEq] at hok
        obtain ⟨hr, hdb2⟩ := hok
        subst hdb2
        refine ⟨h1, h2, h3, h4, ?_, h6, h7, h8⟩
        intro c hc
        rw [List.mem_map] at hc
        obtain ⟨x, hx, hxc⟩ := hc
        subst hxc
        have hpres : ((if (x.id == inp.id && x.ownerId == u) = true then
            applyConceptUpdate inp now x else x).id) = x.id := by
          split <;> rfl
        rw [hpres]
        exact h5 x hx
      · rw [Except.ok.injEq, Prod.mk.injEq] at hok
        obtain ⟨hr, hdb2⟩ := hok
        subst hdb2
        exact ⟨h1, h2, h3, h4, h5, h6, h7, h8⟩

theorem idsAssigned_archiveConcept (id : Nat) (ctx : Option String)
    (now : Nat) (r : Concept) (db db2 : DB)
    (hok : archiveConcept id ctx now db = .ok (r, db2))
    (h : IdsAssigned db) : IdsAssigned db2 := by
  obtain ⟨h1, h2, h3, h4, h5, h6, h7, h8⟩ := h
  rcases ctx with _ | u
  · exact absurd hok (by simp [archiveConcept, requireUser])
  · simp only [archiveConcept, requireUser] at hok
    split at hok
    · exact absurd hok (by simp)
    · rw [Except.ok.injEq, Prod.mk.injEq] at hok
      obtain ⟨hr, hdb2⟩ := hok
      subst hdb2
      refine ⟨h1, h2, h3, h4, ?_, h6, h7, h8⟩
      intro c hc
      rw [List.mem_map] at hc
      obtain ⟨x, hx, hxc⟩ := hc
      subst hxc
      have hpres : ((if (x.id == id && x.ownerId == u) = true then
          { x with status := CStatus.archived, updatedAt := now }
          else x).id) = x.id := by
        split <;> rfl
      rw [hpres]
      exact h5 x hx

theorem idsAssigned_saveStep (inp : SaveStepInput) (ctx : Option String)
    (now : Nat) (r : ConceptStep) (db db2 : DB)
    (hok : saveStep inp ctx now db = .ok (r, db2))
    (h : IdsAssigned db) : IdsAssigned db2 := by
  obtain ⟨h1, h2, h3, h4, h5, h6, h7, h8⟩ := h
  rcases ctx with _ | u
  · exact absurd hok (by simp [saveStep, requireUser])
  · simp only [saveStep, requireUser] at hok
    split at hok
    · exact absurd hok (by simp)
    · split at hok
      · split at hok
        · exact absurd hok (by simp)
        · split at hok
          · rw [Except.ok.injEq, Prod.mk.injEq] at hok
            obtain ⟨hr, hdb2⟩ := hok
            subst hdb2
            refine ⟨h1, h2, h3, h4, h5, ?_, h7, h8⟩
            intro s hs
            rw [List.mem_map] at hs
            obtain ⟨x, hx, hxs⟩ := hs
            subst hxs
            have hpres : ((if (x.id == inp.id.getD 0) = true then
                applyStepBase inp x else x).id) = x.id := by
              split <;> rfl
            rw [hpres]
            exact h6 x hx
          · exact absurd hok (by simp)
      · rw [Except.ok.injEq, Prod.mk.injEq] at hok
        obtain ⟨hr, hdb2⟩ := hok
        subst hdb2
        refine ⟨h1, by show 1 ≤ db.nextStepId + 1; omega, h3, h4, h5, ?_,
                h7, h8⟩
        intro s hs
        rw [List.mem_append] at hs
        rcases hs with hs | hs
        · exact h6 s hs
        · rw [List.mem_singleton] at hs
          subst hs
          show db.nextStepId ≠ 0
          omega

theorem idsAssigned_deleteStep (id conceptId : Nat) (ctx : Option String)
    (r : ConceptStep) (db db2 : DB)
    (hok : deleteStep id conceptId ctx db = .ok (r, db2))
    (h : IdsAssigned db) : IdsAssigned db2 := by
  obtain ⟨h1, h2, h3, h4, h5, h6, h7, h8⟩ := h
  rcases ctx with _ | u
  · exact absurd hok (by simp [deleteStep, requireUser])
  · simp only [deleteStep, requireUser] at hok
    split at hok
    · exact absurd hok (by simp)
    · split at hok
      · exact absurd hok (by simp)
      · rw [Except.ok.injEq, Prod.mk.injEq] at hok
        obtain ⟨hr, hdb2⟩ := hok
        subst hdb2
        refine ⟨h1, h2, h3, h4, h5, ?_, h7, h8⟩
        intro s hs
        rw [List.mem_filter] at hs
        exact h6 s hs.1

theorem idsAssigned_saveCheck (inp : SaveCheckInput) (ctx : Option String)
    (now : Nat) (r : ConceptCheck) (db db2 : DB)
    (hok : saveCheck inp ctx now db = .ok (r, db2))
    (h : IdsAssigned db) : IdsAssigned db2 := by
  obtain ⟨h1, h2, h3, h4, h5, h6, h7, h8⟩ := h
  rcases ctx with _ | u
  · exact absurd hok (by simp [saveCheck, requireUser])
  · simp only [saveCheck, requireUser] at hok
    split at hok
    · exact absurd hok (by simp)
    · split at hok
      · split at hok
        · exact absurd hok (by simp)
        · split at hok
          · rw [Except.ok.injEq, Prod.mk.injEq] at hok
            obtain ⟨hr, hdb2⟩ := hok
            subst hdb2
            refine ⟨h1, h2, h3, h4, h5, h6, ?_, h8⟩
            intro x hx
            rw [List.mem_map] at hx
            obtain ⟨y, hy, hyx⟩ := hx
            subst hyx
            have hpres : ((if (y.id == inp.id.getD 0) = true then
                applyCheckBase inp y else y).id) = y.id := by
              split <;> rfl
            rw [hpres]
            exact h7 y hy
          · exact absurd hok (by simp)
      · rw [Except.ok.injEq, Prod.mk.injEq] at hok
        obtain ⟨hr, hdb2⟩ := hok
        subst hdb2
        refine ⟨h1, h2, by show 1 ≤ db.nextCheckId + 1; omega, h4, h5, h6,
                ?_, h8⟩
        intro x hx
        rw [List.mem_append] at hx
        rcases hx with hx | hx
        · exact h7 x hx
        · rw [List.mem_singleton] at hx
          subst hx
          show db.nextCheckId ≠ 0
          omega

theorem idsAssigned_deleteCheck (id conceptId : Nat) (ctx : Option String)
    (r : ConceptCheck) (db db2 : DB)
    (hok : deleteCheck id conceptId ctx db = .ok (r, db2))
    (h : IdsAssigned db) : IdsAssigned db2 := by
  obtain ⟨h1, h2, h3, h4, h5, h6, h7, h8⟩ := h
  rcases ctx with _ | u
  · exact absurd hok (by simp [deleteCheck, requireUser])
  · simp only [deleteCheck, requireUser] at hok
    split at hok
    · exact absurd hok (by simp)
    · split at hok
      · exact absurd hok (by simp)
      · rw [Except.ok.injEq, Prod.mk.injEq] at hok
        obtain ⟨hr, hdb2⟩ := hok
        subst hdb2
        refine ⟨h1, h2, h3, h4, h5, h6, ?_, h8⟩
        intro x hx
        rw [List.mem_filter] at hx
        exact h7 x hx.1

theorem idsAssigned_createJob (inp : CreateJobInput) (ctx : Option String)
    (now : Nat) (r : ConceptJob) (db db2 : DB)
    (hok : createJob inp ctx now db = .ok (r, db2))
    (h : IdsAssigned db) : IdsAssigned db2 := by
  obtain ⟨h1, h2, h3, h4, h5, h6, h7, h8⟩ := h
  rcases ctx with _ | u
  · exact absurd hok (by simp [createJob, requireUser])
  · simp only [createJob, requireUser] at hok
    split at hok
    · rw [Except.ok.injEq, Prod.mk.injEq] at hok
      obtain ⟨hr, hdb2⟩ := hok
      subst hdb2
      refine ⟨h1, h2, h3, by show 1 ≤ db.nextJobId + 1; omega, h5, h6, h7,
              ?_⟩
      intro j hj
      rw [List.mem_append] at hj
      rcases hj with hj | hj
      · exact h8 j hj
      · rw [List.mem_singleton] at hj
        subst hj
        show db.nextJobId ≠ 0
        omega
    · exact absurd hok (by simp)

theorem idsAssigned_updateJob (inp : UpdateJobInput) (ctx : Option String)
    (r : ConceptJob) (db db2 : DB)
    (hok : updateJob inp ctx db = .ok (r, db2))
    (h : IdsAssigned db) : IdsAssigned db2 := by
  obtain ⟨h1, h2, h3, h4, h5, h6, h7, h8⟩ := h
  rcases ctx with _ | u
  · exact absurd hok (by simp [updateJob, requireUser])
  · simp only [updateJob, requireUser] at hok
    split at hok
    · exact absurd hok (by simp)
    · split at hok
      · rw [Except.ok.injEq, Prod.mk.injEq] at hok
        obtain ⟨hr, hdb2⟩ := hok
        subst hdb2
        exact ⟨h1, h2, h3, h4, h5, h6, h7, h8⟩
      · rw [Except.ok.injEq, Prod.mk.injEq] at hok
        obtain ⟨hr, hdb2⟩ := hok
        subst hdb2
        refine ⟨h1, h2, h3, h4, h5, h6, h7, ?_⟩
        intro j hj
        rw [List.mem_map] at hj
        obtain ⟨x, hx, hxj⟩ := hj
        subst hxj
        have hpres : ((if (x.id == inp.id) = true then
            applyJobUpdate inp x else x).id) = x.id := by
          split <;> rfl
        rw [hpres]
        exact h8 x hx

/-- Every reachable database assigns only nonzero ids: the nonzero-id
hypotheses on existing rows used in the saveStep and saveCheck theorems
hold in every state the handlers can produce from the empty database. -/
theorem reachableDB_idsAssigned (db : DB) (h : ReachableDB db) :
    IdsAssigned db := by
  induction h with
  | empty =>
    refine ⟨le_refl 1, le_refl 1, le_refl 1, le_refl 1, ?_, ?_, ?_, ?_⟩ <;>
      (intro x hx; simp [emptyDB] at hx)
  | step d1 d2 hreach hstep ih =>
    cases hstep with
    | ofCreateConcept inp ctx now r _ _ hok =>
      exact idsAssigned_createConcept inp ctx now r d1 d2 hok ih
    | ofUpdateConcept inp ctx now r _ _ hok =>
      exact idsAssigned_updateConcept inp ctx now r d1 d2 hok ih
    | ofArchiveConcept id ctx now r _ _ hok =>
      exact idsAssigned_archiveConcept id ctx now r d1 d2 hok ih
    | ofSaveStep inp ctx now r _ _ hok =>
      exact idsAssigned_saveStep inp ctx now r d1 d2 hok ih
    | ofDeleteStep id conceptId ctx r _ _ hok =>
      exact idsAssigned_deleteStep id conceptId ctx r d1 d2 hok ih
    | ofSaveCheck inp ctx now r _ _ hok =>
      exact idsAssigned_saveCheck inp ctx now r d1 d2 hok ih
    | ofDeleteCheck id conceptId ctx r _ _ hok =>
      exact idsAssigned_deleteCheck id conceptId ctx r d1 d2 hok ih
    | ofCreateJob inp ctx now r _ _ hok =>
      exact idsAssigned_createJob inp ctx now r d1 d2 hok ih
    | ofUpdateJob inp ctx r _ _ hok =>
      exact idsAssigned_updateJob inp ctx r d1 d2 hok ih

end ConceptExplainer
